import Mathlib

/-
Verification development for the pdf2md repository (src/pdf_to_md.py).

The transcription pipeline of the source is shallowly embedded below:
machine-level concerns (threads, the live display, network transport) are
modelled by explicit state passing.  Each oracle call is modelled by its
observable outcome (text plus optional usage metadata, or an exception
message); the two oracles are indexed by the 0-based attempt number of the
per-page retry loop, which is how the source feeds the rebuilt prompt
(base prompt plus accumulated feedback) back into the next call.
-/

namespace PdfToMd

/-- Token usage metadata attached to an oracle response.  Either counter may
be absent, mirroring `getattr(response.usage_metadata, ..., 0) or 0` in the
source, which treats a missing or None attribute as zero. -/
structure UsageMetadata where
  thoughts_token_count : Option Nat
  candidates_token_count : Option Nat
deriving Repr, DecidableEq

/-- The structured output schema of the verification oracle
(class TranscriptionQuality, src/pdf_to_md.py lines 32-34). -/
structure TranscriptionQuality where
  is_good_quality : Bool
  feedback : String
deriving Repr, DecidableEq

/-- The global cost tracking dictionary (src/pdf_to_md.py lines 37-42). -/
structure TokenPair where
  thoughts : Nat
  output : Nat
deriving Repr, DecidableEq

structure CostTracker where
  transcription_tokens : TokenPair
  verification_tokens : TokenPair
  total_requests : Nat
  retry_count : Nat
deriving Repr, DecidableEq

/-- The initial value of the cost tracking dictionary: all counters zero. -/
def initialCostTracker : CostTracker :=
  { transcription_tokens := { thoughts := 0, output := 0 },
    verification_tokens := { thoughts := 0, output := 0 },
    total_requests := 0,
    retry_count := 0 }

/-- The update performed under `cost_lock` at lines 345-346 of the source:
`cost_tracker["total_requests"] += 1`. -/
def incTotalRequests (c : CostTracker) : CostTracker :=
  { c with total_requests := c.total_requests + 1 }

/-- The cost update of a successful transcription call (src/pdf_to_md.py
lines 326-334): add the (possibly absent, then zero) token counts and bump
`total_requests`, all under `cost_lock`. -/
def recordTranscriptionCall (c : CostTracker) (usage : Option UsageMetadata) :
    CostTracker :=
  let c :=
    match usage with
    | some m =>
      { c with transcription_tokens :=
          { thoughts := c.transcription_tokens.thoughts + m.thoughts_token_count.getD 0,
            output := c.transcription_tokens.output + m.candidates_token_count.getD 0 } }
    | none =>
      { c with transcription_tokens :=
          { thoughts := c.transcription_tokens.thoughts + 0,
            output := c.transcription_tokens.output + 0 } }
  { c with total_requests := c.total_requests + 1 }

/-- Observable outcome of one verification oracle call: either the HTTP call
succeeds (with usage metadata and an optional parsed structured result), or
it raises with an exception message. -/
inductive VerifyCall where
  | success (usage : Option UsageMetadata) (parsed : Option TranscriptionQuality)
  | failure (errMsg : String)
deriving Repr, DecidableEq

/-- Embedding of `verify_transcription` (src/pdf_to_md.py lines 211-276),
restricted to its observable behaviour: token accounting on the cost
tracker and the returned quality verdict.  A raised exception is caught and
turned into an accepting verdict; a response that fails to parse is also
turned into an accepting verdict. -/
def verify_transcription (call : VerifyCall) (c : CostTracker) :
    TranscriptionQuality × CostTracker :=
  match call with
  | .failure e =>
    ({ is_good_quality := true,
       feedback := "Verification failed (" ++ e.take 50 ++ "...), accepting as-is" }, c)
  | .success usage parsed =>
    let c :=
      match usage with
      | some m =>
        { c with verification_tokens :=
            { thoughts := c.verification_tokens.thoughts + m.thoughts_token_count.getD 0,
              output := c.verification_tokens.output + m.candidates_token_count.getD 0 } }
      | none =>
        { c with verification_tokens :=
            { thoughts := c.verification_tokens.thoughts + 0,
              output := c.verification_tokens.output + 0 } }
    match parsed with
    | some r => (r, c)
    | none =>
      ({ is_good_quality := true,
         feedback := "Verification result parsing failed, accepting as-is" }, c)

/-- The pair of oracles available to one page worker, indexed by the 0-based
attempt number of the retry loop (the source rebuilds `current_prompt` from
the base prompt and the accumulated feedback before each attempt; the
response of the external model to that attempt is what the index selects). -/
structure PageOracle where
  transcribe : Nat → Except String (String × Option UsageMetadata)
  verify : Nat → VerifyCall

/-- The error component of the tuple returned by
`transcribe_page_concurrent`: Python None becomes `Option.none`, the
max-retries dict becomes `maxRetries` with the accumulated feedback history,
and a stringified exception becomes `exn`. -/
inductive PageErr where
  | maxRetries (feedback_history : String)
  | exn (message : String)
deriving Repr, DecidableEq

/-- The `(page_num, transcription, error)` tuple returned by
`transcribe_page_concurrent`. -/
structure WorkerReturn where
  page_num : Nat
  transcription : String
  err : Option PageErr
deriving Repr, DecidableEq

/-- The `while retry_count <= max_retries` loop of
`transcribe_page_concurrent` (src/pdf_to_md.py lines 312-375).  The loop
state is `(retry_count, feedback_history, cost_tracker, emitted statuses)`;
the status list records the strings passed to `status_callback`.  `fuel`
is a structural bound on the remaining iterations; the wrapper below passes
`max_retries + 1 - retry_count`, which is exact, so the fuel-exhausted case
coincides with the normal loop exit at line 375. -/
def transcribeLoop (oracle : PageOracle) (page_num max_retries : Nat) :
    Nat → Nat → String → CostTracker → List String →
    WorkerReturn × CostTracker × List String
  | 0, _, _, c, statuses =>
    ({ page_num := page_num,
       transcription := "\n[Error: Max retries exceeded for page " ++ toString page_num ++ "]\n",
       err := some (.exn "Max retries exceeded") }, c, statuses)
  | fuel + 1, retry_count, feedback_history, c, statuses =>
    if retry_count ≤ max_retries then
      match oracle.transcribe retry_count with
      | .error e =>
        ({ page_num := page_num,
           transcription := "\n[Error transcribing page " ++ toString page_num ++ ": " ++ e ++ "]\n",
           err := some (.exn e) }, c, statuses ++ ["error"])
      | .ok (transcription, usage) =>
        let c := recordTranscriptionCall c usage
        let statuses := statuses ++ ["verifying"]
        let vres := verify_transcription (oracle.verify retry_count) c
        let verification := vres.1
        let c := incTotalRequests vres.2
        if verification.is_good_quality then
          ({ page_num := page_num, transcription := transcription, err := none },
            c, statuses ++ ["completed"])
        else
          let retry_count := retry_count + 1
          let c := { c with retry_count := c.retry_count + 1 }
          if retry_count ≤ max_retries then
            transcribeLoop oracle page_num max_retries fuel retry_count
              (feedback_history ++ "\n\nPrevious attempt " ++ toString retry_count ++
                " feedback:\n" ++ verification.feedback)
              c (statuses ++ ["retry_" ++ toString retry_count])
          else
            ({ page_num := page_num, transcription := transcription,
               err := some (.maxRetries feedback_history) },
              c, statuses ++ ["completed_with_issues"])
    else
      ({ page_num := page_num,
         transcription := "\n[Error: Max retries exceeded for page " ++ toString page_num ++ "]\n",
         err := some (.exn "Max retries exceeded") }, c, statuses)

/-- Embedding of `transcribe_page_concurrent` (src/pdf_to_md.py lines
279-375): `max_retries = 10`, `retry_count = 0`, empty feedback history, a
first `status_callback(page_num, "transcribing", "")`, then the retry
loop. -/
def transcribe_page_concurrent (oracle : PageOracle) (page_num : Nat)
    (c : CostTracker) : WorkerReturn × CostTracker × List String :=
  transcribeLoop oracle page_num 10 11 0 "" c ["transcribing"]

/-- What the scheduler observes from one completed future: either the
worker function returned its triple normally, or `future.result()` raised
(the worker crashed without reporting). -/
inductive WorkerOutcome where
  | ok (r : WorkerReturn)
  | exn (message : String)
deriving Repr, DecidableEq

/-- The key under which the fan-in loop of `create_markdown_file_concurrent`
(src/pdf_to_md.py lines 625-647) stores a completed future: the page number
carried in the returned tuple for a normal return, the page number from
`future_to_page` when the future raised. -/
def arrKey (a : Nat × WorkerOutcome) : Nat :=
  match a.2 with
  | .ok r => r.page_num
  | .exn _ => a.1

/-- The text stored into `results` for a completed future. -/
def arrText (a : Nat × WorkerOutcome) : String :=
  match a.2 with
  | .ok r => r.transcription
  | .exn m => "\n[Error processing page " ++ toString a.1 ++ ": " ++ m ++ "]\n"

/-- The `results` dictionary, as a lookup function, and the `debug_pages`
dictionary, as an association list from page number to
(final transcription, feedback history). -/
structure Collected where
  results : Nat → Option String
  debugPages : List (Nat × String × String)

/-- Point update of the `results` dictionary. -/
def updateResults (r : Nat → Option String) (k : Nat) (v : String) :
    Nat → Option String :=
  fun i => if i = k then some v else r i

/-- Dictionary assignment `debug_pages[k] = v`: replace an existing entry
for the key, else append. -/
def dinsert (d : List (Nat × String × String)) (k : Nat) (v : String × String) :
    List (Nat × String × String) :=
  if d.any (fun p => p.1 == k) then
    d.map (fun p => if p.1 == k then (k, v) else p)
  else d ++ [(k, v)]

/-- The body of the `for future in as_completed(...)` loop (src/pdf_to_md.py
lines 625-647).  A normal return always has the 3-tuple shape in this
model, so the `len(result) >= 3` guard is always satisfied; an error that
is the max-retries dict populates `debug_pages`; a stringified exception in
the tuple only prints a console message; a raised future stores an error
placeholder text under the page number of `future_to_page`. -/
def processCompleted (acc : Collected) (a : Nat × WorkerOutcome) : Collected :=
  match a.2 with
  | .ok r =>
    let acc1 := { acc with results := updateResults acc.results r.page_num r.transcription }
    match r.err with
    | some (.maxRetries fb) =>
      { acc1 with debugPages := dinsert acc1.debugPages r.page_num (r.transcription, fb) }
    | some (.exn _) => acc1
    | none => acc1
  | .exn m =>
    let msg := "\n[Error processing page " ++ toString a.1 ++ ": " ++ m ++ "]\n"
    { acc with results := updateResults acc.results a.1 msg }

/-- Fan-in of completed futures, in their arrival order. -/
def collectResults (arrivals : List (Nat × WorkerOutcome)) : Collected :=
  arrivals.foldl processCompleted { results := fun _ => none, debugPages := [] }

/-- Concatenation of a list of written strings, in order. -/
def concatList : List String → String
  | [] => ""
  | s :: rest => s ++ concatList rest

/-- One iteration of the page-writing loop of
`create_markdown_file_concurrent` (src/pdf_to_md.py lines 661-672), acting
on the file contents accumulated so far: a separator when the 1-based
ordinal `k + 1` is past the first page, the page heading, the collected
transcription or the missing-page placeholder, and a trailing newline. -/
def writePageStep (results : Nat → Option String) (acc : String) (k : Nat) :
    String :=
  let i := k + 1
  let acc := if i > 1 then acc ++ "\n\n---\n\n" else acc
  let acc := acc ++ "## Page " ++ toString i ++ "\n\n"
  let acc := acc ++
    (match results i with
     | some t => t
     | none => "\n[Error: Page " ++ toString i ++ " missing from results]\n")
  acc ++ "\n"

/-- The markdown assembly loop of `create_markdown_file_concurrent`
(src/pdf_to_md.py lines 654-672), with the sequence of `md_file.write`
calls modelled as string appends: header, page count line, separator, then
the page loop over ordinals 1..numPages. -/
def writeMarkdownFile (pdfName : String) (numPages : Nat)
    (results : Nat → Option String) : String :=
  let header := "# " ++ pdfName ++ "\n\n" ++
    "*Transcribed from PDF with " ++ toString numPages ++ " pages*\n\n" ++ "---\n\n"
  (List.range numPages).foldl (writePageStep results) header

/-- Insertion into a list sorted by page number; used to model
`sorted(debug_pages.keys())`. -/
def insertSorted (p : Nat × String × String) :
    List (Nat × String × String) → List (Nat × String × String)
  | [] => [p]
  | q :: rest => if p.1 ≤ q.1 then p :: q :: rest else q :: insertSorted p rest

def sortByOrdinal (l : List (Nat × String × String)) :
    List (Nat × String × String) :=
  l.foldr insertSorted []

/-- One per-page block of the debug report (src/pdf_to_md.py lines
688-695). -/
def debugSection (p : Nat × String × String) : String :=
  "## Page " ++ toString p.1 ++ "\n\n### Final Transcription:\n\n" ++ p.2.1 ++
  "\n\n### Verification Feedback History:\n" ++ p.2.2 ++ "\n\n---\n\n"

/-- The debug report of `create_markdown_file_concurrent` (src/pdf_to_md.py
lines 677-698): produced only when `debug_pages` is nonempty, iterating its
keys in sorted order. -/
def createDebugFile (pdfName : String)
    (debugPages : List (Nat × String × String)) : Option String :=
  if debugPages.isEmpty then none
  else some ("# " ++ pdfName ++ " - Error Debug Report\n\n" ++
    "*This file contains debug information for pages that reached the retry limit*\n\n" ++
    "Total pages with max retries: " ++ toString debugPages.length ++ "\n\n" ++
    "---\n\n" ++
    concatList ((sortByOrdinal debugPages).map debugSection))

/-- One whole transcription run over the given page numbers: each page gets
its own worker `transcribe_page_concurrent` over its own oracle pair, the
cost tracker is threaded through every update, and the arrival list of
completed futures is produced.  The returned triple of each worker never
depends on the cost tracker it starts from, and the cost updates are
commutative additions performed under `cost_lock`, so the final counters do
not depend on the interleaving; this sequential presentation fixes one
representative order. -/
def runPages (oracles : Nat → PageOracle) :
    List Nat → CostTracker → List (Nat × WorkerOutcome) × CostTracker
  | [], c => ([], c)
  | p :: rest, c =>
    let w := transcribe_page_concurrent (oracles p) p c
    let r := runPages oracles rest w.2.1
    ((p, .ok w.1) :: r.1, r.2)

/-- The filesystem model for `check_existing_files` and `main`: the list of
existing file names (each name at most once). -/
def fileExists (fs : List String) (f : String) : Bool := fs.contains f

/-- `os.remove` on the filesystem model. -/
def removeFile (fs : List String) (f : String) : List String :=
  fs.filter (fun g => g != f)

/-- Embedding of `check_existing_files` (src/pdf_to_md.py lines 106-135)
for a fixed output file name: if the output exists it is deleted when
`overwrite` is set and otherwise the program exits with status 1.  The
error carries the exit code and the filesystem at exit. -/
def check_existing_files (fs : List String) (outputFile : String)
    (overwrite : Bool) : Except (Nat × List String) (List String) :=
  if fileExists fs outputFile then
    if overwrite then .ok (removeFile fs outputFile)
    else .error (1, fs)
  else .ok fs

/-- Creating the output file at assembly time. -/
def writeFile (fs : List String) (f : String) : List String :=
  if fileExists fs f then fs else fs ++ [f]

/-- The transcription-mode tail of `main` (src/pdf_to_md.py lines 792-803):
`check_existing_files`, then `convert_pdf_to_images` (which calls
`sys.exit(1)` on failure, mirrored by `rasterizeOk = false`), then the
markdown file is written.  The deletion performed by `check_existing_files`
happens before rasterization starts, so a rasterization failure exits with
the old output file already removed. -/
def runTranscribeMode (fs : List String) (outputFile : String)
    (overwrite : Bool) (rasterizeOk : Bool) :
    Except (Nat × List String) (List String) :=
  match check_existing_files fs outputFile overwrite with
  | .error r => .error r
  | .ok fs1 =>
    if rasterizeOk then .ok (writeFile fs1 outputFile)
    else .error (1, fs1)

/-- The atomic counter bumps of one interleaved run: each element of the
schedule is one worker entering `cost_lock` and performing
`total_requests += 1`. -/
def execSchedule {α : Type} (sched : List α) (c : CostTracker) : CostTracker :=
  sched.foldl (fun cc _ => incTotalRequests cc) c

/-- The header written before the page loop (src/pdf_to_md.py lines
656-658). -/
def mdHeader (pdfName : String) (numPages : Nat) : String :=
  "# " ++ pdfName ++ "\n\n" ++
    "*Transcribed from PDF with " ++ toString numPages ++ " pages*\n\n" ++ "---\n\n"

/-- The text written for ordinal `i`: the collected transcription, or the
missing-page placeholder. -/
def pageBody (results : Nat → Option String) (i : Nat) : String :=
  match results i with
  | some t => t
  | none => "\n[Error: Page " ++ toString i ++ " missing from results]\n"

/-- Everything written for ordinal `i` in the page loop: a separator when
`i` is not the first page, the page heading, the page body, a trailing
newline. -/
def pageSection (results : Nat → Option String) (i : Nat) : String :=
  (if i > 1 then "\n\n---\n\n" else "") ++ "## Page " ++ toString i ++ "\n\n" ++
    pageBody results i ++ "\n"

/-- Statement vocabulary for C1: the feedback history accumulated by `n`
sequential rejections, feedback of attempt `k` labelled with `k`. -/
def rejectionHistory (f : Nat → String) : Nat → String
  | 0 => ""
  | n + 1 =>
    rejectionHistory f n ++ "\n\nPrevious attempt " ++ toString (n + 1) ++
      " feedback:\n" ++ f n

/-- Statement vocabulary for C1: the status updates emitted by `n`
sequential rejected attempts. -/
def retryStatuses : Nat → List String
  | 0 => []
  | n + 1 => retryStatuses n ++ ["verifying", "retry_" ++ toString (n + 1)]

/-- Componentwise order on cost trackers, for the monotonicity claims. -/
def CostTracker.le (a b : CostTracker) : Prop :=
  a.transcription_tokens.thoughts ≤ b.transcription_tokens.thoughts ∧
  a.transcription_tokens.output ≤ b.transcription_tokens.output ∧
  a.verification_tokens.thoughts ≤ b.verification_tokens.thoughts ∧
  a.verification_tokens.output ≤ b.verification_tokens.output ∧
  a.total_requests ≤ b.total_requests ∧
  a.retry_count ≤ b.retry_count

/-- A concrete oracle whose verification rejects every attempt. -/
def alwaysRejectOracle : PageOracle :=
  { transcribe := fun i => .ok ("T" ++ toString i, none),
    verify := fun _ => .success none (some ⟨false, "bad"⟩) }

/-- The oracle family of the 3-page scenario of C2: every transcription
succeeds, and only the first verification of page 2 rejects. -/
def oracleC2 : Nat → PageOracle := fun p =>
  { transcribe := fun _ => .ok ("t", none),
    verify := fun i =>
      if p = 2 ∧ i = 0 then .success none (some ⟨false, "bad"⟩)
      else .success none (some ⟨true, "ok"⟩) }

/-- A concrete oracle whose verification call always raises. -/
def verifyFailsOracle : PageOracle :=
  { transcribe := fun _ => .ok ("t", none),
    verify := fun _ => .failure "boom" }

/-- The oracle family of C4: the transcription call of page 2 raises, every
other page behaves normally. -/
def oracleC4 : Nat → PageOracle := fun p =>
  if p = 2 then
    { transcribe := fun _ => .error "boom",
      verify := fun _ => .success none (some ⟨true, "ok"⟩) }
  else
    { transcribe := fun _ => .ok ("t", none),
      verify := fun _ => .success none (some ⟨true, "ok"⟩) }

/-- An oracle family accepting every page on the first attempt. -/
def acceptAllOracle : Nat → PageOracle := fun _ =>
  { transcribe := fun _ => .ok ("t", none),
    verify := fun _ => .success none (some ⟨true, "ok"⟩) }

/-- Two arrival orders of the same two completed pages. -/
def arrOrder1 : List (Nat × WorkerOutcome) :=
  [(1, .ok ⟨1, "a", none⟩), (2, .ok ⟨2, "b", none⟩)]

def arrOrder2 : List (Nat × WorkerOutcome) :=
  [(2, .ok ⟨2, "b", none⟩), (1, .ok ⟨1, "a", none⟩)]

theorem recordTranscriptionCall_total (c : CostTracker) (u : Option UsageMetadata) :
    (recordTranscriptionCall c u).total_requests = c.total_requests + 1 := by
  cases u <;> rfl

theorem recordTranscriptionCall_retry (c : CostTracker) (u : Option UsageMetadata) :
    (recordTranscriptionCall c u).retry_count = c.retry_count := by
  cases u <;> rfl

theorem verify_transcription_total (call : VerifyCall) (c : CostTracker) :
    (verify_transcription call c).2.total_requests = c.total_requests := by
  cases call with
  | failure e => rfl
  | success u parsed => cases u <;> cases parsed <;> rfl

theorem verify_transcription_retry (call : VerifyCall) (c : CostTracker) :
    (verify_transcription call c).2.retry_count = c.retry_count := by
  cases call with
  | failure e => rfl
  | success u parsed => cases u <;> cases parsed <;> rfl

theorem verify_transcription_parsed (u : Option UsageMetadata)
    (q : TranscriptionQuality) (c : CostTracker) :
    (verify_transcription (.success u (some q)) c).1 = q := by
  cases u <;> rfl

theorem verify_transcription_quality (call : VerifyCall) (c c' : CostTracker) :
    (verify_transcription call c).1 = (verify_transcription call c').1 := by
  cases call with
  | failure e => rfl
  | success u parsed => cases u <;> cases parsed <;> rfl

theorem costLe_refl (c : CostTracker) : CostTracker.le c c := by
  refine ⟨le_refl _, le_refl _, le_refl _, le_refl _, le_refl _, le_refl _⟩

theorem costLe_trans {a b c : CostTracker} (h1 : CostTracker.le a b)
    (h2 : CostTracker.le b c) : CostTracker.le a c := by
  obtain ⟨x1, x2, x3, x4, x5, x6⟩ := h1
  obtain ⟨y1, y2, y3, y4, y5, y6⟩ := h2
  exact ⟨x1.trans y1, x2.trans y2, x3.trans y3, x4.trans y4, x5.trans y5, x6.trans y6⟩

theorem costLe_incTotalRequests (c : CostTracker) :
    CostTracker.le c (incTotalRequests c) := by
  refine ⟨le_refl _, le_refl _, le_refl _, le_refl _, Nat.le_succ _, le_refl _⟩

theorem costLe_incRetry (c : CostTracker) :
    CostTracker.le c { c with retry_count := c.retry_count + 1 } := by
  refine ⟨le_refl _, le_refl _, le_refl _, le_refl _, le_refl _, Nat.le_succ _⟩

theorem costLe_recordTranscriptionCall (c : CostTracker)
    (u : Option UsageMetadata) :
    CostTracker.le c (recordTranscriptionCall c u) := by
  cases u <;>
    exact ⟨Nat.le_add_right _ _, Nat.le_add_right _ _, le_refl _, le_refl _,
      Nat.le_succ _, le_refl _⟩

theorem costLe_verify_transcription (call : VerifyCall) (c : CostTracker) :
    CostTracker.le c (verify_transcription call c).2 := by
  cases call with
  | failure e => exact costLe_refl c
  | success u parsed =>
    cases u <;> cases parsed <;>
      exact ⟨le_refl _, le_refl _, Nat.le_add_right _ _, Nat.le_add_right _ _,
        le_refl _, le_refl _⟩

theorem costLe_transcribeLoop (oracle : PageOracle) (p m : Nat) :
    ∀ fuel r fb c st, CostTracker.le c (transcribeLoop oracle p m fuel r fb c st).2.1 := by
  intro fuel
  induction fuel with
  | zero => intro r fb c st; exact costLe_refl c
  | succ fuel ih =>
    intro r fb c st
    rw [transcribeLoop]
    by_cases hr : r ≤ m
    · rw [if_pos hr]
      cases ho : oracle.transcribe r with
      | error e => exact costLe_refl c
      | ok pr =>
        obtain ⟨tt, uu⟩ := pr
        dsimp only
        have hbase : CostTracker.le c
            (incTotalRequests
              (verify_transcription (oracle.verify r)
                (recordTranscriptionCall c uu)).2) :=
          costLe_trans (costLe_recordTranscriptionCall c uu)
            (costLe_trans
              (costLe_verify_transcription (oracle.verify r)
                (recordTranscriptionCall c uu))
              (costLe_incTotalRequests _))
        by_cases hq :
            (verify_transcription (oracle.verify r)
              (recordTranscriptionCall c uu)).1.is_good_quality
        · rw [if_pos hq]
          exact hbase
        · rw [if_neg hq]
          have hc2 := costLe_trans hbase (costLe_incRetry _)
          by_cases hr2 : r + 1 ≤ m
          · rw [if_pos hr2]
            exact costLe_trans hc2 (ih _ _ _ _)
          · rw [if_neg hr2]
            exact hc2
    · rw [if_neg hr]
      exact costLe_refl c

theorem costLe_runPages (oracles : Nat → PageOracle) :
    ∀ pages c, CostTracker.le c (runPages oracles pages c).2 := by
  intro pages
  induction pages with
  | nil => intro c; exact costLe_refl c
  | cons p rest ih =>
    intro c
    rw [runPages]
    exact costLe_trans
      (costLe_transcribeLoop (oracles p) p 10 11 0 "" c ["transcribing"]) (ih _)

/-- The tuple a worker returns depends only on its own oracle and page
number, never on the shared cost tracker or the statuses emitted so far. -/
theorem transcribeLoop_result_const (oracle : PageOracle) (p m : Nat) :
    ∀ fuel r fb c c' st st',
      (transcribeLoop oracle p m fuel r fb c st).1 =
        (transcribeLoop oracle p m fuel r fb c' st').1 := by
  intro fuel
  induction fuel with
  | zero => intro r fb c c' st st'; rfl
  | succ fuel ih =>
    intro r fb c c' st st'
    rw [transcribeLoop, transcribeLoop]
    by_cases hr : r ≤ m
    · rw [if_pos hr, if_pos hr]
      cases ho : oracle.transcribe r with
      | error e => rfl
      | ok pr =>
        obtain ⟨tt, uu⟩ := pr
        dsimp only
        rw [verify_transcription_quality (oracle.verify r)
          (recordTranscriptionCall c' uu) (recordTranscriptionCall c uu)]
        by_cases hq :
            (verify_transcription (oracle.verify r)
              (recordTranscriptionCall c uu)).1.is_good_quality
        · rw [if_pos hq, if_pos hq]
        · rw [if_neg hq, if_neg hq]
          by_cases hr2 : r + 1 ≤ m
          · rw [if_pos hr2, if_pos hr2]
            exact ih _ _ _ _ _ _
          · rw [if_neg hr2, if_neg hr2]
    · rw [if_neg hr, if_neg hr]

/-- The returned arrival of each page of a run is a function of that page
and its oracle alone: fault isolation across workers. -/
theorem runPages_arrivals (oracles : Nat → PageOracle) :
    ∀ pages c,
      (runPages oracles pages c).1 =
        pages.map (fun p =>
          (p, WorkerOutcome.ok
            (transcribe_page_concurrent (oracles p) p initialCostTracker).1)) := by
  intro pages
  induction pages with
  | nil => intro c; rfl
  | cons p rest ih =>
    intro c
    rw [runPages, List.map_cons]
    dsimp only
    rw [ih]
    rw [show (transcribe_page_concurrent (oracles p) p c).1 =
      (transcribe_page_concurrent (oracles p) p initialCostTracker).1 from
      transcribeLoop_result_const (oracles p) p 10 11 0 "" c initialCostTracker
        ["transcribing"] ["transcribing"]]

/-- One fan-in step stores exactly one results entry, under the arrival
key. -/
theorem processCompleted_results (acc : Collected) (a : Nat × WorkerOutcome)
    (j : Nat) :
    (processCompleted acc a).results j =
      if j = arrKey a then some (arrText a) else acc.results j := by
  obtain ⟨k, o⟩ := a
  cases o with
  | ok r =>
    cases hre : r.err with
    | none => simp [processCompleted, updateResults, arrKey, arrText, hre]
    | some pe =>
      cases pe with
      | maxRetries fb =>
        simp [processCompleted, updateResults, arrKey, arrText, hre]
      | exn m => simp [processCompleted, updateResults, arrKey, arrText, hre]
  | exn m => simp [processCompleted, updateResults, arrKey, arrText]

/-- One fan-in step adds a debug entry only for a max-retries result. -/
theorem processCompleted_debug (acc : Collected) (a : Nat × WorkerOutcome)
    (h : ∀ r fb, a.2 = WorkerOutcome.ok r → r.err ≠ some (.maxRetries fb)) :
    (processCompleted acc a).debugPages = acc.debugPages := by
  obtain ⟨k, o⟩ := a
  cases o with
  | ok r =>
    cases hre : r.err with
    | none => simp [processCompleted, hre]
    | some pe =>
      cases pe with
      | maxRetries fb => exact absurd hre (h r fb rfl)
      | exn m => simp [processCompleted, hre]
  | exn m => simp [processCompleted]

theorem collect_debug_nil :
    ∀ (arrivals : List (Nat × WorkerOutcome)) (acc : Collected),
      (∀ a ∈ arrivals, ∀ r fb, a.2 = WorkerOutcome.ok r →
        r.err ≠ some (.maxRetries fb)) →
      (arrivals.foldl processCompleted acc).debugPages = acc.debugPages := by
  intro arrivals
  induction arrivals with
  | nil => intro acc h; rfl
  | cons a rest ih =>
    intro acc h
    rw [List.foldl_cons]
    rw [ih _ fun b hb => h b (List.mem_cons_of_mem a hb)]
    exact processCompleted_debug acc a (h a (List.mem_cons_self a rest))

/-- The looked-up text of the fan-in fold: the text of the last arrival
stored under that key, else whatever the accumulator held. -/
theorem foldl_results_lookup :
    ∀ (arrivals : List (Nat × WorkerOutcome)) (acc : Collected) (i : Nat),
      ((arrivals.map arrKey).Nodup) →
      (arrivals.foldl processCompleted acc).results i =
        (match arrivals.find? (fun a => arrKey a == i) with
         | some a => some (arrText a)
         | none => acc.results i) := by
  intro arrivals
  induction arrivals with
  | nil => intro acc i _; rfl
  | cons a rest ih =>
    intro acc i hn
    rw [List.map_cons, List.nodup_cons] at hn
    obtain ⟨hka, hnr⟩ := hn
    rw [List.foldl_cons, ih _ i hnr]
    by_cases hk : arrKey a = i
    · rw [List.find?_cons_of_pos _ (by simp [hk])]
      have hrest : rest.find? (fun b => arrKey b == i) = none := by
        rw [List.find?_eq_none]
        intro b hb
        simp only [beq_iff_eq]
        intro hbk
        exact hka (hk ▸ hbk ▸ List.mem_map_of_mem arrKey hb)
      rw [hrest]
      simp [processCompleted_results, hk]
    · rw [List.find?_cons_of_neg _ (by simp [hk])]
      cases hf : rest.find? (fun b => arrKey b == i) with
      | some b => simp
      | none =>
        simp only [processCompleted_results, hk]
        simp only [if_neg (fun h => hk (Eq.symm h))]

theorem find_of_unique {α : Type} (q : α → Bool) :
    ∀ (l : List α) (a : α), a ∈ l → q a = true →
      (∀ b ∈ l, q b = true → b = a) → l.find? q = some a := by
  intro l
  induction l with
  | nil => intro a ha _ _; cases ha
  | cons x xs ih =>
    intro a ha hq hu
    by_cases hx : q x = true
    · rw [List.find?_cons_of_pos _ hx]
      rw [hu x (List.mem_cons_self x xs) hx]
    · rw [List.find?_cons_of_neg _ (by simp [hx])]
      have hax : a ≠ x := fun h => hx (h ▸ hq)
      have ha2 : a ∈ xs := by
        cases List.mem_cons.mp ha with
        | inl h => exact absurd h hax
        | inr h => exact h
      exact ih a ha2 hq fun b hb hbq => hu b (List.mem_cons_of_mem x hb) hbq

theorem find_perm_of_unique {α : Type} (q : α → Bool) (l l' : List α)
    (hp : l.Perm l')
    (hu : ∀ a ∈ l, ∀ b ∈ l, q a = true → q b = true → a = b) :
    l.find? q = l'.find? q := by
  cases hfa : l.find? q with
  | none =>
    rw [List.find?_eq_none] at hfa
    rw [eq_comm, List.find?_eq_none]
    intro x hx
    exact hfa x (hp.symm.subset hx)
  | some a =>
    have ha : a ∈ l := List.mem_of_find?_eq_some hfa
    have hqa : q a = true := List.find?_some hfa
    rw [eq_comm]
    exact find_of_unique q l' a (hp.subset ha) hqa
      fun b hb hbq => hu b (hp.symm.subset hb) a ha hbq hqa

/-- Arrivals with pairwise distinct keys determine each value of the
results dictionary independently of their arrival order. -/
theorem collectResults_perm (arr arr' : List (Nat × WorkerOutcome))
    (hp : arr.Perm arr') (hn : (arr.map arrKey).Nodup) (i : Nat) :
    (collectResults arr).results i = (collectResults arr').results i := by
  have hn' : (arr'.map arrKey).Nodup := ((hp.map arrKey).nodup_iff).mp hn
  have hinj : ∀ a ∈ arr, ∀ b ∈ arr, arrKey a = arrKey b → a = b := by
    intro a ha b hb hab
    exact List.inj_on_of_nodup_map hn ha hb hab
  rw [collectResults, collectResults, foldl_results_lookup arr _ i hn,
    foldl_results_lookup arr' _ i hn']
  rw [find_perm_of_unique (fun a => arrKey a == i) arr arr' hp]
  intro a ha b hb hqa hqb
  have h1 : arrKey a = i := by simpa using hqa
  have h2 : arrKey b = i := by simpa using hqb
  exact hinj a ha b hb (h1.trans h2.symm)

/-- An ordinal no arrival reported stays absent from the results
dictionary. -/
theorem collect_results_none :
    ∀ (arrivals : List (Nat × WorkerOutcome)) (acc : Collected) (i : Nat),
      (∀ a ∈ arrivals, arrKey a ≠ i) → acc.results i = none →
      (arrivals.foldl processCompleted acc).results i = none := by
  intro arrivals
  induction arrivals with
  | nil => intro acc i _ hacc; exact hacc
  | cons a rest ih =>
    intro acc i h hacc
    rw [List.foldl_cons]
    refine ih _ i (fun b hb => h b (List.mem_cons_of_mem a hb)) ?_
    rw [processCompleted_results]
    rw [if_neg fun he => (h a (List.mem_cons_self a rest)) he.symm]
    exact hacc

theorem writePageStep_eq (results : Nat → Option String) (acc : String)
    (k : Nat) :
    writePageStep results acc k = acc ++ pageSection results (k + 1) := by
  rw [writePageStep, pageSection, pageBody]
  by_cases h : k + 1 > 1
  · rw [if_pos h, if_pos h]
    simp [String.append_assoc]
  · rw [if_neg h, if_neg h]
    simp [String.append_assoc]

/-- The page-writing loop appends exactly the concatenation of the page
sections, in ordinal order. -/
theorem foldl_writePageStep (results : Nat → Option String) :
    ∀ (l : List Nat) (init : String),
      l.foldl (writePageStep results) init =
        init ++ concatList (l.map (fun k => pageSection results (k + 1))) := by
  intro l
  induction l with
  | nil => intro init; simp [concatList]
  | cons k rest ih =>
    intro init
    rw [List.foldl_cons, ih, writePageStep_eq, List.map_cons, concatList,
      String.append_assoc]

theorem writeMarkdownFile_sections (pdfName : String) (numPages : Nat)
    (results : Nat → Option String) :
    writeMarkdownFile pdfName numPages results =
      mdHeader pdfName numPages ++
        concatList ((List.range numPages).map
          (fun k => pageSection results (k + 1))) := by
  rw [writeMarkdownFile, mdHeader]
  exact foldl_writePageStep results (List.range numPages) _

theorem concatList_append :
    ∀ l1 l2 : List String, concatList (l1 ++ l2) = concatList l1 ++ concatList l2 := by
  intro l1
  induction l1 with
  | nil => intro l2; simp [concatList]
  | cons s rest ih =>
    intro l2
    rw [List.cons_append, concatList, concatList, ih, String.append_assoc]

/-- Every ordinal in [1, N] contributes its section to the concatenated
page loop output, splitting the output around that section. -/
theorem concatList_range_split (g : Nat → String) :
    ∀ (N i : Nat), 1 ≤ i → i ≤ N →
      ∃ pre post,
        concatList ((List.range N).map (fun k => g (k + 1))) =
          pre ++ g i ++ post := by
  intro N
  induction N with
  | zero => intro i h1 h2; omega
  | succ N ih =>
    intro i h1 h2
    rw [List.range_succ, List.map_append, concatList_append]
    by_cases hi : i ≤ N
    · obtain ⟨pre, post, hsplit⟩ := ih i h1 hi
      refine ⟨pre, post ++ concatList ([N].map (fun k => g (k + 1))), ?_⟩
      rw [hsplit]
      rw [String.append_assoc, String.append_assoc]
    · have hiN : i = N + 1 := by omega
      refine ⟨concatList ((List.range N).map (fun k => g (k + 1))), "", ?_⟩
      subst hiN
      simp [concatList, String.append_assoc]

/-- A page accepted on the first attempt: one transcription call, one
verification call, outcome accepted, no retry status. -/
theorem transcribe_page_accept (oracle : PageOracle) (p : Nat)
    (c : CostTracker) (t : String) (u vq : Option UsageMetadata) (g : String)
    (ht : oracle.transcribe 0 = .ok (t, u))
    (hv : oracle.verify 0 = .success vq (some ⟨true, g⟩)) :
    (transcribe_page_concurrent oracle p c).1 =
      ⟨p, t, none⟩ ∧
    (transcribe_page_concurrent oracle p c).2.1.total_requests =
      c.total_requests + 2 ∧
    (transcribe_page_concurrent oracle p c).2.1.retry_count = c.retry_count ∧
    (transcribe_page_concurrent oracle p c).2.2 =
      ["transcribing", "verifying", "completed"] := by
  refine ⟨?_, ?_, ?_, ?_⟩ <;>
    simp [transcribe_page_concurrent, transcribeLoop, ht, hv,
      verify_transcription_parsed, recordTranscriptionCall_total,
      verify_transcription_total, recordTranscriptionCall_retry,
      verify_transcription_retry, incTotalRequests]

theorem runPages_accepting (oracles : Nat → PageOracle)
    (t : Nat → String) (u vq : Nat → Option UsageMetadata) (g : Nat → String)
    (ht : ∀ p, (oracles p).transcribe 0 = .ok (t p, u p))
    (hv : ∀ p, (oracles p).verify 0 = .success (vq p) (some ⟨true, g p⟩)) :
    ∀ pages c,
      (runPages oracles pages c).2.total_requests =
        c.total_requests + 2 * pages.length ∧
      (runPages oracles pages c).2.retry_count = c.retry_count := by
  intro pages
  induction pages with
  | nil => intro c; simp [runPages]
  | cons p rest ih =>
    intro c
    rw [runPages]
    dsimp only
    obtain ⟨-, h2, h3, -⟩ :=
      transcribe_page_accept (oracles p) p c (t p) (u p) (vq p) (g p)
        (ht p) (hv p)
    obtain ⟨i1, i2⟩ := ih (transcribe_page_concurrent (oracles p) p c).2.1
    refine ⟨?_, ?_⟩
    · rw [i1, h2, List.length_cons]
      omega
    · rw [i2, h3]

theorem execSchedule_total {α : Type} :
    ∀ (sched : List α) (c : CostTracker),
      (execSchedule sched c).total_requests = c.total_requests + sched.length := by
  intro sched
  induction sched with
  | nil => intro c; rfl
  | cons a rest ih =>
    intro c
    show (execSchedule rest (incTotalRequests c)).total_requests = _
    rw [ih, List.length_cons]
    simp only [incTotalRequests]
    omega

theorem length_eq_sum_count (W : Nat) :
    ∀ l : List (Fin W), l.length = ∑ w : Fin W, l.count w := by
  intro l
  induction l with
  | nil => simp
  | cons a rest ih =>
    rw [List.length_cons, ih]
    have hc : ∀ w : Fin W, (a :: rest).count w = rest.count w + if a = w then 1 else 0 := by
      intro w
      rw [List.count_cons]
      simp [beq_iff_eq]
    rw [Finset.sum_congr rfl fun w _ => hc w, Finset.sum_add_distrib]
    simp [Finset.sum_ite_eq]


/-- C8: every cost-ledger update treats missing or absent token-usage
metadata as zero and never fails on its absence, and every counter is a
non-negative natural that is monotonically non-decreasing under every
update a worker performs, hence across the whole run. -/
theorem claim_C8_ledger_missing_usage_and_monotone :
    (∀ c, recordTranscriptionCall c none = incTotalRequests c) ∧
    (∀ c, recordTranscriptionCall c (some ⟨none, none⟩) = incTotalRequests c) ∧
    (∀ c parsed, (verify_transcription (.success none parsed) c).2 = c) ∧
    (∀ c parsed,
      (verify_transcription (.success (some ⟨none, none⟩) parsed) c).2 = c) ∧
    (∀ c u, CostTracker.le c (recordTranscriptionCall c u)) ∧
    (∀ c call, CostTracker.le c (verify_transcription call c).2) ∧
    (∀ c, CostTracker.le c (incTotalRequests c)) ∧
    (∀ oracle p m fuel r fb c st,
      CostTracker.le c (transcribeLoop oracle p m fuel r fb c st).2.1) ∧
    (∀ oracles pages c, CostTracker.le c (runPages oracles pages c).2) := by
  refine ⟨?_, ?_, ?_, ?_, ?_, ?_, ?_, ?_, ?_⟩
  · intro c; simp [recordTranscriptionCall, incTotalRequests]
  · intro c; simp [recordTranscriptionCall, incTotalRequests]
  · intro c parsed; cases parsed <;> simp [verify_transcription]
  · intro c parsed; cases parsed <;> simp [verify_transcription]
  · intro c u; exact costLe_recordTranscriptionCall c u
  · intro c call; exact costLe_verify_transcription call c
  · intro c; exact costLe_incTotalRequests c
  · intro oracle p m fuel r fb c st; exact costLe_transcribeLoop oracle p m fuel r fb c st
  · intro oracles pages c; exact costLe_runPages oracles pages c

/-- C9: with each lock-protected `total_requests += 1` taken as one atomic
schedule event, any interleaving of W workers each performing K increments
ends with exactly W * K recorded requests: no increment is lost. -/
theorem claim_C9_no_lost_increments (W K : Nat) (sched : List (Fin W))
    (h : ∀ w : Fin W, sched.count w = K) :
    (execSchedule sched initialCostTracker).total_requests = W * K := by
  rw [execSchedule_total]
  show 0 + sched.length = W * K
  rw [Nat.zero_add, length_eq_sum_count W sched,
    Finset.sum_congr rfl fun w _ => h w]
  simp [Finset.sum_const, Finset.card_univ, Nat.mul_comm]

theorem claim_C9_witness :
    (execSchedule ([0, 1, 1, 0] : List (Fin 2)) initialCostTracker).total_requests
      = 2 * 2 :=
  claim_C9_no_lost_increments 2 2 [0, 1, 1, 0] (by decide)

/-- C10: with the overwrite flag set and the output file present, the file
is deleted by the pre-run check, before any rasterization work; a
subsequent fatal rasterization failure therefore exits with the old output
already gone (delete-then-recreate, not atomic replacement). -/
theorem claim_C10_overwrite_deletes_before_rasterizing (fs : List String)
    (out : String) (hex : fileExists fs out = true) :
    check_existing_files fs out true = .ok (removeFile fs out) ∧
    fileExists (removeFile fs out) out = false ∧
    runTranscribeMode fs out true false = .error (1, removeFile fs out) := by
  refine ⟨?_, ?_, ?_⟩
  · simp [check_existing_files, hex]
  · simp [fileExists, removeFile]
  · simp [runTranscribeMode, check_existing_files, hex]

theorem claim_C10_witness :
    check_existing_files ["doc.md"] "doc.md" true =
      .ok (removeFile ["doc.md"] "doc.md") ∧
    fileExists (removeFile ["doc.md"] "doc.md") "doc.md" = false ∧
    runTranscribeMode ["doc.md"] "doc.md" true false =
      .error (1, removeFile ["doc.md"] "doc.md") :=
  claim_C10_overwrite_deletes_before_rasterizing ["doc.md"] "doc.md" (by decide)

set_option maxRecDepth 10000 in
/-- C2 counterexample: in the 3-page scenario where only the first
verification of page 2 rejects, the ledger ends at 8 total requests (4
transcriptions + 4 verifications), refuting the claimed total of 7. -/
theorem claim_C2_counterexample :
    (runPages oracleC2 [1, 2, 3] initialCostTracker).2.total_requests = 8 ∧
    ¬ (runPages oracleC2 [1, 2, 3] initialCostTracker).2.total_requests = 7 := by
  refine ⟨by decide, by decide⟩

set_option maxRecDepth 10000 in
/-- C2 amended: the scenario yields a 3-section document in ordinal order,
total_requests = 8 (page 2 is transcribed twice and verified twice),
retry_count = 1, and no debug file. -/
theorem claim_C2_amended_scenario :
    (runPages oracleC2 [1, 2, 3] initialCostTracker).2.total_requests = 8 ∧
    (runPages oracleC2 [1, 2, 3] initialCostTracker).2.retry_count = 1 ∧
    (collectResults (runPages oracleC2 [1, 2, 3] initialCostTracker).1).debugPages
      = [] ∧
    createDebugFile "doc"
      (collectResults (runPages oracleC2 [1, 2, 3] initialCostTracker).1).debugPages
      = none ∧
    writeMarkdownFile "doc" 3
      (collectResults (runPages oracleC2 [1, 2, 3] initialCostTracker).1).results =
      "# doc\n\n*Transcribed from PDF with 3 pages*\n\n---\n\n" ++
        "## Page 1\n\nt\n" ++ "\n\n---\n\n## Page 2\n\nt\n" ++
        "\n\n---\n\n## Page 3\n\nt\n" := by
  refine ⟨by decide, by decide, by decide, by decide, by decide⟩

set_option maxRecDepth 100000 in
/-- C3 counterexample: a failing verification call is accepted, but its
feedback text embeds the failure description, not the verbatim text
"verification failed, accepting as-is" the claim states. -/
theorem claim_C3_counterexample :
    (verify_transcription (.failure "boom") initialCostTracker).1.is_good_quality
      = true ∧
    ¬ (verify_transcription (.failure "boom") initialCostTracker).1.feedback =
        "verification failed, accepting as-is" := by
  decide

/-- C3 amended: a failing verification call returns an accepting verdict
whose feedback is "Verification failed (<first 50 chars>...), accepting
as-is", leaves the ledger untouched, and the page completes forward with
no retry and no error outcome. -/
theorem claim_C3_amended_verify_failure_accepts (e : String) (c : CostTracker)
    (oracle : PageOracle) (p : Nat) (t : String) (u : Option UsageMetadata)
    (ht : oracle.transcribe 0 = .ok (t, u))
    (hv : oracle.verify 0 = .failure e) :
    verify_transcription (.failure e) c =
      ({ is_good_quality := true,
         feedback := "Verification failed (" ++ e.take 50 ++ "...), accepting as-is" },
        c) ∧
    (transcribe_page_concurrent oracle p c).1 = ⟨p, t, none⟩ ∧
    (transcribe_page_concurrent oracle p c).2.2 =
      ["transcribing", "verifying", "completed"] := by
  refine ⟨rfl, ?_, ?_⟩ <;>
    simp [transcribe_page_concurrent, transcribeLoop, ht, hv,
      verify_transcription]

set_option maxRecDepth 100000 in
theorem claim_C3_witness :
    verify_transcription (.failure "boom") initialCostTracker =
      ({ is_good_quality := true,
         feedback := "Verification failed (boom...), accepting as-is" },
        initialCostTracker) ∧
    (transcribe_page_concurrent verifyFailsOracle 1 initialCostTracker).1 =
      ⟨1, "t", none⟩ ∧
    (transcribe_page_concurrent verifyFailsOracle 1 initialCostTracker).2.2 =
      ["transcribing", "verifying", "completed"] :=
  claim_C3_amended_verify_failure_accepts "boom" initialCostTracker
    verifyFailsOracle 1 "t" none rfl rfl

theorem pageSection_congr (r1 r2 : Nat → Option String) (i : Nat)
    (h : r1 i = r2 i) : pageSection r1 i = pageSection r2 i := by
  rw [pageSection, pageSection, pageBody, pageBody, h]

set_option maxHeartbeats 1000000 in
/-- C1: a page whose verification oracle rejects every submitted
transcription is re-transcribed exactly 10 times with retry statuses
numbered sequentially from 1, finalized as completed-with-issues carrying
the last produced transcription and the accumulated feedback history, uses
11 transcription and 11 verification requests, and lands in the debug
report. -/
theorem claim_C1_always_rejected_page (oracle : PageOracle) (p : Nat)
    (c : CostTracker) (nm : String) (t : Nat → String)
    (u vq : Nat → Option UsageMetadata) (f : Nat → String)
    (ht : ∀ i, oracle.transcribe i = .ok (t i, u i))
    (hv : ∀ i, oracle.verify i = .success (vq i) (some ⟨false, f i⟩)) :
    (transcribe_page_concurrent oracle p c).1 =
      ⟨p, t 10, some (.maxRetries (rejectionHistory f 10))⟩ ∧
    (transcribe_page_concurrent oracle p c).2.2 =
      ["transcribing"] ++ retryStatuses 10 ++
        ["verifying", "completed_with_issues"] ∧
    (transcribe_page_concurrent oracle p c).2.1.total_requests =
      c.total_requests + 22 ∧
    (collectResults
        [(p, .ok (transcribe_page_concurrent oracle p c).1)]).debugPages =
      [(p, (t 10, rejectionHistory f 10))] ∧
    (∃ pre post,
      createDebugFile nm
        (collectResults
          [(p, .ok (transcribe_page_concurrent oracle p c).1)]).debugPages =
        some (pre ++ debugSection (p, (t 10, rejectionHistory f 10)) ++ post)) := by
  have h1 : (transcribe_page_concurrent oracle p c).1 =
      ⟨p, t 10, some (.maxRetries (rejectionHistory f 10))⟩ := by
    simp [transcribe_page_concurrent, transcribeLoop, ht, hv,
      verify_transcription_parsed, rejectionHistory]
  have h4 : (collectResults
      [(p, .ok (transcribe_page_concurrent oracle p c).1)]).debugPages =
      [(p, (t 10, rejectionHistory f 10))] := by
    rw [h1]
    simp [collectResults, processCompleted, dinsert]
  refine ⟨h1, ?_, ?_, h4, ?_⟩
  · simp [transcribe_page_concurrent, transcribeLoop, ht, hv,
      verify_transcription_parsed, retryStatuses]
  · simp [transcribe_page_concurrent, transcribeLoop, ht, hv,
      verify_transcription_parsed, recordTranscriptionCall_total,
      verify_transcription_total, incTotalRequests]
  · rw [h4]
    refine ⟨"# " ++ nm ++ " - Error Debug Report\n\n" ++
      "*This file contains debug information for pages that reached the retry limit*\n\n" ++
      "Total pages with max retries: " ++ toString (1 : Nat) ++ "\n\n" ++
      "---\n\n", "", ?_⟩
    simp only [createDebugFile, List.isEmpty_cons, Bool.false_eq_true,
      if_false, sortByOrdinal, List.foldr_cons, List.foldr_nil, insertSorted,
      List.map_cons, List.map_nil, concatList, List.length_cons,
      List.length_nil, Nat.zero_add, String.append_empty,
      String.append_assoc]

/-- C4: a transcription-oracle failure for page k yields for that page an
errored result carrying the failure description after a single attempt (no
oracle-level retry), it leaves the ledger untouched, and every page of a
run contributes the result computed from its own oracle alone, so all
other pages complete normally. -/
theorem claim_C4_oracle_failure_isolated (oracles oracless : Nat → PageOracle)
    (pages : List Nat) (k : Nat) (e : String) (c : CostTracker)
    (hk : (oracles k).transcribe 0 = .error e)
    (hag : ∀ p, p ≠ k → oracless p = oracles p) :
    transcribe_page_concurrent (oracles k) k c =
      (⟨k, "\n[Error transcribing page " ++ toString k ++ ": " ++ e ++ "]\n",
        some (.exn e)⟩, c, ["transcribing", "error"]) ∧
    (runPages oracles pages c).1 =
      pages.map (fun p => (p, WorkerOutcome.ok
        (transcribe_page_concurrent (oracles p) p initialCostTracker).1)) ∧
    (∀ p, p ≠ k →
      (transcribe_page_concurrent (oracless p) p initialCostTracker).1 =
        (transcribe_page_concurrent (oracles p) p initialCostTracker).1) := by
  refine ⟨?_, runPages_arrivals oracles pages c, ?_⟩
  · simp [transcribe_page_concurrent, transcribeLoop, hk]
  · intro p hp
    rw [hag p hp]

theorem claim_C4_witness :
    transcribe_page_concurrent (oracleC4 2) 2 initialCostTracker =
      (⟨2, "\n[Error transcribing page 2: boom]\n", some (.exn "boom")⟩,
        initialCostTracker, ["transcribing", "error"]) ∧
    (runPages oracleC4 [1, 2, 3] initialCostTracker).1 =
      [1, 2, 3].map (fun p => (p, WorkerOutcome.ok
        (transcribe_page_concurrent (oracleC4 p) p initialCostTracker).1)) ∧
    (∀ p, p ≠ 2 →
      (transcribe_page_concurrent (oracleC4 p) p initialCostTracker).1 =
        (transcribe_page_concurrent (oracleC4 p) p initialCostTracker).1) :=
  claim_C4_oracle_failure_isolated oracleC4 oracleC4 [1, 2, 3] 2 "boom"
    initialCostTracker rfl (fun _ _ => rfl)

/-- C5: the assembled markdown is the title header, the page count line
and a separator, followed by the page sections for ordinals 1..N in
ascending order with separators only between consecutive pages; and for
arrivals with pairwise distinct page keys the assembled document does not
depend on the order in which workers completed. -/
theorem claim_C5_document_order_independent (nm : String) (N : Nat)
    (arr arrp : List (Nat × WorkerOutcome)) (hp : arr.Perm arrp)
    (hn : (arr.map arrKey).Nodup) :
    writeMarkdownFile nm N (collectResults arr).results =
      writeMarkdownFile nm N (collectResults arrp).results ∧
    (∀ res, writeMarkdownFile nm N res =
      mdHeader nm N ++
        concatList ((List.range N).map (fun k => pageSection res (k + 1)))) := by
  refine ⟨?_, fun res => writeMarkdownFile_sections nm N res⟩
  rw [writeMarkdownFile_sections, writeMarkdownFile_sections]
  have hfun : (fun k => pageSection (collectResults arr).results (k + 1)) =
      (fun k => pageSection (collectResults arrp).results (k + 1)) := by
    funext k
    exact pageSection_congr _ _ _ (collectResults_perm arr arrp hp hn (k + 1))
  rw [hfun]

theorem claim_C5_witness :
    writeMarkdownFile "doc" 2 (collectResults arrOrder1).results =
      writeMarkdownFile "doc" 2 (collectResults arrOrder2).results ∧
    (∀ res, writeMarkdownFile "doc" 2 res =
      mdHeader "doc" 2 ++
        concatList ((List.range 2).map (fun k => pageSection res (k + 1)))) :=
  claim_C5_document_order_independent "doc" 2 arrOrder1 arrOrder2
    (by decide) (by decide)

/-- C6: an ordinal in [1, N] for which no worker stored a result is still
covered at assembly time: its section is synthesized with a placeholder
error body rather than omitted, so the output document covers all N
ordinals. -/
theorem claim_C6_missing_ordinal_placeholder (nm : String) (N : Nat)
    (arr : List (Nat × WorkerOutcome)) (i : Nat)
    (h1 : 1 ≤ i) (h2 : i ≤ N) (h3 : ∀ a ∈ arr, arrKey a ≠ i) :
    (collectResults arr).results i = none ∧
    ∃ pre post,
      writeMarkdownFile nm N (collectResults arr).results =
        pre ++ ("## Page " ++ toString i ++ "\n\n" ++
          ("\n[Error: Page " ++ toString i ++ " missing from results]\n") ++
          "\n") ++ post := by
  have hnone : (collectResults arr).results i = none :=
    collect_results_none arr _ i h3 rfl
  refine ⟨hnone, ?_⟩
  obtain ⟨pre, post, hsplit⟩ :=
    concatList_range_split
      (fun j => pageSection (collectResults arr).results j) N i h1 h2
  rw [writeMarkdownFile_sections, hsplit]
  have hbody : pageBody (collectResults arr).results i =
      "\n[Error: Page " ++ toString i ++ " missing from results]\n" := by
    rw [pageBody, hnone]
  rw [pageSection, hbody]
  by_cases hgt : i > 1
  · rw [if_pos hgt]
    refine ⟨mdHeader nm N ++ pre ++ "\n\n---\n\n", post, ?_⟩
    simp only [String.append_assoc]
  · rw [if_neg hgt]
    refine ⟨mdHeader nm N ++ pre, post, ?_⟩
    simp only [String.empty_append, String.append_assoc]

theorem claim_C6_witness :
    (collectResults [(1, WorkerOutcome.ok ⟨1, "a", none⟩)]).results 2 = none ∧
    ∃ pre post,
      writeMarkdownFile "doc" 2
          (collectResults [(1, WorkerOutcome.ok ⟨1, "a", none⟩)]).results =
        pre ++ ("## Page " ++ toString 2 ++ "\n\n" ++
          ("\n[Error: Page " ++ toString 2 ++ " missing from results]\n") ++
          "\n") ++ post :=
  claim_C6_missing_ordinal_placeholder "doc" 2
    [(1, WorkerOutcome.ok ⟨1, "a", none⟩)] 2 (by decide) (by decide) (by decide)

/-- C7: a run over pages 1..N whose verifications all accept immediately
spends exactly 2 requests per page (one transcription, one verification),
2N in total, performs no retry, and produces no debug report; every such
page completes with its first transcription and no retry status. -/
theorem claim_C7_zero_retry_run (oracles : Nat → PageOracle) (N : Nat)
    (c : CostTracker) (nm : String) (t : Nat → String)
    (u vq : Nat → Option UsageMetadata) (g : Nat → String)
    (ht : ∀ p, (oracles p).transcribe 0 = .ok (t p, u p))
    (hv : ∀ p, (oracles p).verify 0 = .success (vq p) (some ⟨true, g p⟩)) :
    (runPages oracles (List.range' 1 N) c).2.total_requests =
      c.total_requests + 2 * N ∧
    (runPages oracles (List.range' 1 N) c).2.retry_count = c.retry_count ∧
    (∀ p cc,
      (transcribe_page_concurrent (oracles p) p cc).1 = ⟨p, t p, none⟩ ∧
      (transcribe_page_concurrent (oracles p) p cc).2.1.total_requests =
        cc.total_requests + 2 ∧
      (transcribe_page_concurrent (oracles p) p cc).2.2 =
        ["transcribing", "verifying", "completed"]) ∧
    (collectResults (runPages oracles (List.range' 1 N) c).1).debugPages = [] ∧
    createDebugFile nm
      (collectResults (runPages oracles (List.range' 1 N) c).1).debugPages =
      none := by
  obtain ⟨htot, hretry⟩ :=
    runPages_accepting oracles t u vq g ht hv (List.range' 1 N) c
  have hlen : (List.range' 1 N).length = N := by simp
  have hdbg :
      (collectResults (runPages oracles (List.range' 1 N) c).1).debugPages =
        [] := by
    rw [collectResults, collect_debug_nil]
    intro a ha r fb hok
    rw [runPages_arrivals] at ha
    obtain ⟨p, hpmem, hpa⟩ := List.mem_map.mp ha
    obtain ⟨hres, -, -⟩ :=
      transcribe_page_accept (oracles p) p initialCostTracker (t p) (u p)
        (vq p) (g p) (ht p) (hv p)
    rw [← hpa] at hok
    simp only at hok
    rw [hres] at hok
    cases hok
    simp
  refine ⟨?_, hretry, ?_, hdbg, ?_⟩
  · rw [htot, hlen]
  · intro p cc
    obtain ⟨a1, a2, a3, a4⟩ :=
      transcribe_page_accept (oracles p) p cc (t p) (u p) (vq p) (g p)
        (ht p) (hv p)
    exact ⟨a1, a2, a4⟩
  · rw [hdbg]
    rfl

theorem claim_C7_witness :
    (runPages acceptAllOracle (List.range' 1 3) initialCostTracker).2.total_requests =
      initialCostTracker.total_requests + 2 * 3 ∧
    (runPages acceptAllOracle (List.range' 1 3) initialCostTracker).2.retry_count =
      initialCostTracker.retry_count ∧
    (∀ p cc,
      (transcribe_page_concurrent (acceptAllOracle p) p cc).1 = ⟨p, "t", none⟩ ∧
      (transcribe_page_concurrent (acceptAllOracle p) p cc).2.1.total_requests =
        cc.total_requests + 2 ∧
      (transcribe_page_concurrent (acceptAllOracle p) p cc).2.2 =
        ["transcribing", "verifying", "completed"]) ∧
    (collectResults
        (runPages acceptAllOracle (List.range' 1 3) initialCostTracker).1).debugPages
      = [] ∧
    createDebugFile "doc"
      (collectResults
        (runPages acceptAllOracle (List.range' 1 3) initialCostTracker).1).debugPages
      = none :=
  claim_C7_zero_retry_run acceptAllOracle 3 initialCostTracker "doc"
    (fun _ => "t") (fun _ => none) (fun _ => none) (fun _ => "ok")
    (fun _ => rfl) (fun _ => rfl)

set_option maxRecDepth 100000 in
theorem claim_C1_witness :
    (transcribe_page_concurrent alwaysRejectOracle 1 initialCostTracker).1 =
      ⟨1, "T" ++ toString 10,
        some (.maxRetries (rejectionHistory (fun _ => "bad") 10))⟩ ∧
    (transcribe_page_concurrent alwaysRejectOracle 1 initialCostTracker).2.2 =
      ["transcribing"] ++ retryStatuses 10 ++
        ["verifying", "completed_with_issues"] ∧
    (transcribe_page_concurrent alwaysRejectOracle 1
        initialCostTracker).2.1.total_requests =
      initialCostTracker.total_requests + 22 ∧
    (collectResults
        [(1, .ok (transcribe_page_concurrent alwaysRejectOracle 1
            initialCostTracker).1)]).debugPages =
      [(1, ("T" ++ toString 10, rejectionHistory (fun _ => "bad") 10))] ∧
    (∃ pre post,
      createDebugFile "doc"
        (collectResults
          [(1, .ok (transcribe_page_concurrent alwaysRejectOracle 1
              initialCostTracker).1)]).debugPages =
        some (pre ++
          debugSection (1, ("T" ++ toString 10,
            rejectionHistory (fun _ => "bad") 10)) ++ post)) :=
  claim_C1_always_rejected_page alwaysRejectOracle 1 initialCostTracker "doc"
    (fun i => "T" ++ toString i) (fun _ => none) (fun _ => none)
    (fun _ => "bad") (fun _ => rfl) (fun _ => rfl)

end PdfToMd
